import Mathlib

/-!
Verification development for the personal-finance ledger engine
(`finances.py`).

The engine persists a single JSON document holding a list of transactions
and a mapping from category to spending limit.  Every public operation
loads the whole document, works on it, and (for mutating operations)
writes it back.  We embed the document as the `Ledger` structure and each
operation as a pure function from the loaded ledger to the saved ledger
(plus its other outputs); the load/save round trip of the Python code is
exactly this function applied to the persisted state.

Monetary amounts are embedded as rationals (`ℚ`): Python stores
`float(amount)` and the specification allows any exact numeric
representation ("within numeric tolerance of the chosen representation").

The GUI popups of the Python code are embedded as data: the warning popup
of `add_transaction` becomes a returned `Bool`, the error popups become
`Except` errors.
-/

namespace Finances

/-- Error kinds of the engine.  `invalidInput` is the `ValueError` raised
for invalid input (empty category, negative limit), `invalidDateFormat`
is the `ValueError` raised by `datetime.strptime` on a malformed date and
caught by `generate_report` (which then shows an error popup and returns
nothing), and `typeErrorCrash` is the uncaught `TypeError` that Python
raises when a date bound is the empty string while the other bound is
given (the empty string survives the `if start_date:` truthiness check
unparsed and is then compared against a `datetime`). -/
inductive EngineError where
  | invalidInput
  | invalidDateFormat
  | typeErrorCrash
deriving DecidableEq, Repr

/-- One stored transaction, mirroring the JSON object built by
`add_transaction`: `amount` (stored as `float(amount)`), `category`,
`note`, `date` (the string `datetime.now().isoformat()`), and the derived
`type` label. -/
structure Transaction where
  amount : ℚ
  category : String
  note : String
  date : String
  type : String
deriving DecidableEq, Repr

/-- The persisted document: `{"transactions": [...], "limits": {...}}`.
The `limits` dict is embedded as an association list in insertion order,
which is exactly the key/value content of a Python `dict`. -/
structure Ledger where
  transactions : List Transaction
  limits : List (String × ℚ)
deriving DecidableEq, Repr

/-- Lookup in the embedded dict: `data["limits"].get(category, None)`. -/
def dict_lookup (m : List (String × ℚ)) (k : String) : Option ℚ :=
  match m with
  | [] => none
  | (k₁, v) :: rest => if k₁ = k then some v else dict_lookup rest k

/-- Insertion/overwrite in the embedded dict:
`data["limits"][category] = v`.  A Python dict keeps the position of an
overwritten key and appends a new key at the end. -/
def dict_insert (m : List (String × ℚ)) (k : String) (v : ℚ) : List (String × ℚ) :=
  match m with
  | [] => [(k, v)]
  | (k₁, v₁) :: rest =>
      if k₁ = k then (k, v) :: rest else (k₁, v₁) :: dict_insert rest k v

/-- The empty document synthesized by `load_data` when no file exists. -/
def emptyLedger : Ledger := { transactions := [], limits := [] }

/-- The transaction object built by `add_transaction` (lines 51-58).
`now` is the string `datetime.now().isoformat()`, an external input of
the embedding. -/
def mkTransaction (now : String) (amount : ℚ) (category note : String) : Transaction :=
  { amount := amount
    category := category
    note := note
    date := now
    type := if amount < 0 then "списание" else "начисление" }

/-- The limit check of `add_transaction` (lines 60-67): if a limit is
configured for `category`, sum the amounts of the stored transactions in
that category, add the new amount, and warn (`messagebox.showwarning`)
when the projected total strictly exceeds the limit.  The returned `Bool`
embeds whether the warning popup is shown. -/
def limit_warning (data : Ledger) (amount : ℚ) (category : String) : Bool :=
  match dict_lookup data.limits category with
  | none => false
  | some lim =>
      let total := (data.transactions.filter (fun t => t.category = category)).foldl
        (fun s t => s + t.amount) 0
      decide (total + amount > lim)

/-- Embedding of `add_transaction(amount, category, note)` (lines 36-71):
load the document, build the transaction with the derived `type`, run the
advisory limit check, append the transaction, save.  Returns the saved
ledger together with the warning flag.  Note that the function body
performs no validation of `category` whatsoever. -/
def add_transaction (now : String) (amount : ℚ) (category note : String)
    (data : Ledger) : Ledger × Bool :=
  let warn := limit_warning data amount category
  ({ data with
      transactions := data.transactions ++ [mkTransaction now amount category note] },
   warn)

/-- Embedding of the GUI callback `handle_add_transaction` (lines
195-204): it, and only it, rejects an empty category (raising
`ValueError`, caught and shown as an error popup) before calling
`add_transaction`. -/
def handle_add_transaction (now : String) (amount : ℚ) (category note : String)
    (data : Ledger) : Except EngineError (Ledger × Bool) :=
  if category = "" then .error .invalidInput
  else .ok (add_transaction now amount category note data)

/-- Embedding of `calculate_balance()` (lines 74-83): the sum of every
stored transaction's amount. -/
def calculate_balance (data : Ledger) : ℚ :=
  data.transactions.foldl (fun s t => s + t.amount) 0

/-- Embedding of `set_limit(category, limit)` (lines 154-168): a negative
limit raises `ValueError` before the document is even loaded, otherwise
the limit entry is inserted or overwritten and the document saved. -/
def set_limit (category : String) (lim : ℚ) (data : Ledger) :
    Except EngineError Ledger :=
  if lim < 0 then .error .invalidInput
  else .ok { data with limits := dict_insert data.limits category lim }

/-- A point in time as Python's `datetime` stores it: year, month, day,
hour, minute, second, microsecond. -/
structure DateTime where
  year : Nat
  month : Nat
  day : Nat
  hour : Nat
  minute : Nat
  second : Nat
  usec : Nat
deriving DecidableEq, Repr

namespace DateTime

/-- Order-faithful encoding of the calendar-date part (valid months are
below 16 and valid days below 32, so this encoding is lexicographic on
year, month, day for in-range dates). -/
def dateKey (t : DateTime) : Nat :=
  (t.year * 16 + t.month) * 32 + t.day

/-- Microseconds elapsed since midnight; below 86400000000 for any valid
time of day. -/
def timeKey (t : DateTime) : Nat :=
  ((t.hour * 60 + t.minute) * 60 + t.second) * 1000000 + t.usec

/-- Order-faithful encoding of the full date-time.  Python compares
`datetime` values lexicographically on their components; on in-range
values that is exactly the order of this encoding. -/
def key (t : DateTime) : Nat :=
  t.dateKey * 86400000000 + t.timeKey

/-- Embedding of Python's `<=` on `datetime` values. -/
def le (a b : DateTime) : Bool :=
  a.key ≤ b.key

/-- Calendar-date comparison (ignoring the time of day): the date of `a`
is before or equal to the date of `b`. -/
def dateLe (a b : DateTime) : Bool :=
  decide (a.year < b.year ∨ (a.year = b.year ∧
    (a.month < b.month ∨ (a.month = b.month ∧ a.day ≤ b.day))))

/-- In-range components, as `datetime(...)` itself enforces. -/
def Valid (t : DateTime) : Prop :=
  1 ≤ t.year ∧ t.year ≤ 9999 ∧ 1 ≤ t.month ∧ t.month ≤ 12 ∧
  1 ≤ t.day ∧ t.day ≤ 31 ∧ t.hour ≤ 23 ∧ t.minute ≤ 59 ∧
  t.second ≤ 59 ∧ t.usec < 1000000

instance (t : DateTime) : Decidable t.Valid := by
  unfold Valid; infer_instance

end DateTime

/-- Number of days of a month in the proleptic Gregorian calendar, as
`datetime` validates the day component. -/
def daysInMonth (year month : Nat) : Nat :=
  if month = 2 then
    if year % 4 = 0 ∧ (year % 100 ≠ 0 ∨ year % 400 = 0) then 29 else 28
  else if month = 4 ∨ month = 6 ∨ month = 9 ∨ month = 11 then 30
  else 31

/-- Smart constructor mirroring `datetime(year, month, day, ...)`: it
fails (`ValueError`) unless every component is in range. -/
def mkDateTime (year month day hour minute second usec : Nat) : Option DateTime :=
  if 1 ≤ year ∧ year ≤ 9999 ∧ 1 ≤ month ∧ month ≤ 12 ∧
     1 ≤ day ∧ day ≤ daysInMonth year month ∧
     hour ≤ 23 ∧ minute ≤ 59 ∧ second ≤ 59 ∧ usec < 1000000
  then some ⟨year, month, day, hour, minute, second, usec⟩
  else none

/-- Splits a character list at every occurrence of `c` (the pieces keep
their order; separators are dropped), like `str.split` on one character. -/
def splitOnChar (c : Char) : List Char → List (List Char)
  | [] => [[]]
  | x :: xs =>
      let r := splitOnChar c xs
      if x = c then [] :: r
      else
        match r with
        | [] => [[x]]
        | y :: ys => (x :: y) :: ys

/-- Numeric value of a digit list (most significant first). -/
def digitsVal (l : List Char) : Nat :=
  l.foldl (fun n c => n * 10 + (c.toNat - 48)) 0

/-- A run of `lo` to `hi` decimal digits, as the `strptime` field
patterns match them; fails otherwise. -/
def digitsInRange (lo hi : Nat) (l : List Char) : Option Nat :=
  if lo ≤ l.length ∧ l.length ≤ hi ∧ l.all Char.isDigit then some (digitsVal l)
  else none

/-- Embedding of `datetime.strptime(s, "%d.%m.%Y")` (used for the report's
date bounds): day and month are 1-2 digits, the year exactly 4 digits,
the components must form a valid calendar date, and the resulting
`datetime` is at midnight of that date. -/
def parseDMY (s : String) : Option DateTime :=
  match splitOnChar '.' s.toList with
  | [ds, ms, ys] => do
      let d ← digitsInRange 1 2 ds
      let mo ← digitsInRange 1 2 ms
      let y ← digitsInRange 4 4 ys
      mkDateTime y mo d 0 0 0 0
  | _ => none

/-- Embedding of `datetime.strptime(s, "%Y-%m-%dT%H:%M:%S.%f")` (used on
every stored transaction timestamp): the fractional part is 1-6 digits
and is scaled to microseconds. -/
def parseISO (s : String) : Option DateTime :=
  match splitOnChar 'T' s.toList with
  | [dpart, tpart] =>
      match splitOnChar '-' dpart, splitOnChar ':' tpart with
      | [ys, ms, ds], [hs, mins, secfrac] =>
          match splitOnChar '.' secfrac with
          | [secs, fracs] => do
              let y ← digitsInRange 4 4 ys
              let mo ← digitsInRange 1 2 ms
              let d ← digitsInRange 1 2 ds
              let h ← digitsInRange 1 2 hs
              let mi ← digitsInRange 1 2 mins
              let sec ← digitsInRange 1 2 secs
              let f ← digitsInRange 1 6 fracs
              mkDateTime y mo d h mi sec (f * 10 ^ (6 - fracs.length))
          | _ => none
      | _, _ => none
  | _ => none

/-- Python truthiness of the optional string arguments of
`generate_report`: `None` and the empty string are falsy. -/
def truthy : Option String → Bool
  | none => false
  | some s => s ≠ ""

/-- The value of the local variable `start_date` / `end_date` after the
`if start_date: start_date = datetime.strptime(...)` reassignment inside
the filter block: still `None`, still the (falsy, unparsed) empty string,
or a parsed `datetime`. -/
inductive Bound where
  | null
  | emptyStr
  | dt (d : DateTime)
deriving DecidableEq, Repr

/-- Reassignment of one bound (lines 106-109): a truthy bound string is
parsed with `strptime "%d.%m.%Y"`, raising `ValueError` (caught, turned
into the error popup) when malformed; `None` and `""` pass through. -/
def parseBound : Option String → Except EngineError Bound
  | none => .ok .null
  | some s =>
      if s = "" then .ok .emptyStr
      else
        match parseDMY s with
        | some d => .ok (.dt d)
        | none => .error .invalidDateFormat

/-- The `end_date` conjunct of the filter comprehension (line 115):
`end_date is None or strptime(t["date"], ...) <= end_date`.  A transaction
timestamp that fails to parse raises `ValueError` (caught by the same
`except`); comparing a `datetime` with the leftover empty string raises
an uncaught `TypeError`. -/
def checkEnd (eb : Bound) (t : Transaction) : Except EngineError Bool :=
  match eb with
  | .null => .ok true
  | .emptyStr =>
      match parseISO t.date with
      | none => .error .invalidDateFormat
      | some _ => .error .typeErrorCrash
  | .dt d =>
      match parseISO t.date with
      | none => .error .invalidDateFormat
      | some td => .ok (td.le d)

/-- The full per-transaction condition of the filter comprehension (lines
112-115), with Python's short-circuit `and`: the `start_date` conjunct
first, then — only if it held — the `end_date` conjunct. -/
def checkTx (sb eb : Bound) (t : Transaction) : Except EngineError Bool :=
  match sb with
  | .null => checkEnd eb t
  | .emptyStr =>
      match parseISO t.date with
      | none => .error .invalidDateFormat
      | some _ => .error .typeErrorCrash
  | .dt d =>
      match parseISO t.date with
      | none => .error .invalidDateFormat
      | some td => if DateTime.le d td then checkEnd eb t else .ok false

/-- The list comprehension of lines 112-115: keep the transactions whose
condition holds, propagating the first error raised. -/
def filterTxs (sb eb : Bound) : List Transaction → Except EngineError (List Transaction)
  | [] => .ok []
  | t :: ts => do
      let keep ← checkTx sb eb t
      let rest ← filterTxs sb eb ts
      pure (if keep then t :: rest else rest)

/-- The date-filter block of `generate_report` (lines 103-118): applied
only when at least one bound is truthy; parses the bounds, then filters.
A `ValueError` anywhere in the block aborts the whole report. -/
def date_filter (sd ed : Option String) (ts : List Transaction) :
    Except EngineError (List Transaction) :=
  if truthy sd || truthy ed then do
    let sb ← parseBound sd
    let eb ← parseBound ed
    filterTxs sb eb ts
  else .ok ts

/-- The category-filter block of `generate_report` (lines 121-122):
applied only when `category` is truthy; exact, case-sensitive match. -/
def category_filter (c : Option String) (ts : List Transaction) : List Transaction :=
  match c with
  | none => ts
  | some s => if s = "" then ts else ts.filter (fun t => t.category = s)

/-- The sort key dispatch of `generate_report` (lines 125-132), as the
induced `≤` comparison: the recognized `sort_by` values are the literals
of the source; every other value falls back to the note key.  String
comparison is lexicographic by code point, as in Python. -/
def sort_key_le (sort_by : String) (a b : Transaction) : Bool :=
  if sort_by = "дата" then decide (a.date ≤ b.date)
  else if sort_by = "сумма" then decide (a.amount ≤ b.amount)
  else if sort_by = "категория" then decide (a.category ≤ b.category)
  else decide (a.note ≤ b.note)

/-- The comparison actually used by `sorted(transactions, key=key,
reverse=reverse)`: Python's `reverse=True` sorts by the reversed
comparison while keeping the sort stable. -/
def report_le (sort_by : String) (reverse : Bool) (a b : Transaction) : Bool :=
  if reverse then sort_key_le sort_by b a else sort_key_le sort_by a b

/-- The sort of line 134: Python's `sorted` is a stable merge sort, so it
is embedded as `List.mergeSort` with the comparison above. -/
def sort_transactions (sort_by : String) (reverse : Bool)
    (ts : List Transaction) : List Transaction :=
  ts.mergeSort (report_le sort_by reverse)

/-- Embedding of `generate_report(sort_by, reverse, start_date, end_date,
category)` (lines 86-151): date filter, then category filter, then sort.
The rendering loop only reads the result; the ledger is never written, so
the function's only output is the ordered sequence (or the error). -/
def generate_report (sort_by : String) (reverse : Bool)
    (start_date end_date category : Option String) (data : Ledger) :
    Except EngineError (List Transaction) := do
  let ts ← date_filter start_date end_date data.transactions
  pure (sort_transactions sort_by reverse (category_filter category ts))

/-- Applies a whole sequence of `add_transaction` calls; each tuple is
`(now, amount, category, note)`. -/
def apply_adds (data : Ledger) (adds : List (String × ℚ × String × String)) : Ledger :=
  adds.foldl (fun d a => (add_transaction a.1 a.2.1 a.2.2.1 a.2.2.2 d).1) data

/-- The invariant of the data model: the stored `type` label matches the
sign of `amount`. -/
def type_consistent (t : Transaction) : Prop :=
  t.type = if t.amount < 0 then "списание" else "начисление"

/-- Net total of the stored transactions of one category (the sum the
limit check of `add_transaction` computes). -/
def category_total (data : Ledger) (category : String) : ℚ :=
  ((data.transactions.filter (fun t => t.category = category)).map Transaction.amount).sum

/-- A well-formed optional date bound: either absent, or a truthy string
that parses as `ДД.ММ.ГГГГ`. -/
def BoundOk : Option String → Prop
  | none => True
  | some s => s ≠ "" ∧ (parseDMY s).isSome

/-- A malformed date bound as the claims mean it: a given (truthy) string
that `strptime "%d.%m.%Y"` rejects. -/
def malformedBound (b : Option String) : Prop :=
  ∃ s, b = some s ∧ s ≠ "" ∧ parseDMY s = none

/-- The parsed value of a well-formed optional bound (`none` when the
bound is absent). -/
def parsedBound : Option String → Option DateTime
  | none => none
  | some s => if s = "" then none else parseDMY s

/-- Modelled from the spec's wording of the date filter, amended on the
end side: a transaction passes when its timestamp's calendar date is
`≥ startDate` (when given) and its full timestamp is `≤` midnight of
`endDate` (when given).  This is the specification-side predicate the
code's filter is compared against. -/
def spec_date_pass (sdt edt : Option DateTime) (t : Transaction) : Bool :=
  match parseISO t.date with
  | none => false
  | some td =>
      (match sdt with
       | none => true
       | some d => DateTime.dateLe d td) &&
      (match edt with
       | none => true
       | some d => DateTime.le td d)

/-- Sample transaction: mid-June, mid-morning. -/
def txJuneMorning : Transaction :=
  { amount := 5, category := "Продукты", note := "обед",
    date := "2024-06-15T10:00:00.000000", type := "начисление" }

/-- Sample transaction: first of an equal-amount pair. -/
def txPairFst : Transaction :=
  { amount := 7, category := "А", note := "первая",
    date := "2024-01-01T00:00:00.000001", type := "начисление" }

/-- Sample transaction: second of an equal-amount pair. -/
def txPairSnd : Transaction :=
  { amount := 7, category := "Б", note := "вторая",
    date := "2024-01-02T00:00:00.000001", type := "начисление" }

/-- Sample transaction: 80 already spent on `Продукты`. -/
def txProducts80 : Transaction :=
  { amount := 80, category := "Продукты", note := "",
    date := "2024-06-01T12:00:00.000001", type := "начисление" }

/-- Sample ledger with a configured limit of 100 on `Продукты` and 80
already spent there. -/
def limitLedger : Ledger :=
  { transactions := [txProducts80], limits := [("Продукты", 100)] }

/-! ## Helper lemmas -/

theorem dict_lookup_insert_self (m : List (String × ℚ)) (k : String) (v : ℚ) :
    dict_lookup (dict_insert m k v) k = some v := by
  induction m with
  | nil => simp [dict_insert, dict_lookup]
  | cons p rest ih =>
      obtain ⟨k₁, v₁⟩ := p
      by_cases h : k₁ = k
      · simp [dict_insert, h, dict_lookup]
      · simp [dict_insert, h, dict_lookup, ih]

theorem dict_lookup_insert_ne (m : List (String × ℚ)) (k : String) (v : ℚ)
    (c : String) (hc : c ≠ k) :
    dict_lookup (dict_insert m k v) c = dict_lookup m c := by
  have hkc : ¬ (k = c) := fun h => hc h.symm
  induction m with
  | nil => simp [dict_insert, dict_lookup, hkc]
  | cons p rest ih =>
      obtain ⟨k₁, v₁⟩ := p
      by_cases h : k₁ = k
      · subst h
        simp [dict_insert, dict_lookup, hkc]
      · simp [dict_insert, h, dict_lookup, ih]

theorem foldl_add_amount (ts : List Transaction) (c : ℚ) :
    ts.foldl (fun s t => s + t.amount) c = c + (ts.map Transaction.amount).sum := by
  induction ts generalizing c with
  | nil => simp
  | cons t ts ih => simp [ih]; ring

theorem calculate_balance_append (data : Ledger) (tx : Transaction) :
    calculate_balance { data with transactions := data.transactions ++ [tx] }
      = calculate_balance data + tx.amount := by
  simp [calculate_balance, foldl_add_amount]

/-! ## C10: a successful add only appends -/

/-- C10: a successful `add_transaction` changes the ledger only by
appending the one new transaction at the end: the limits mapping and all
previously stored transactions (values and order) are untouched. -/
theorem add_transaction_frame (now : String) (amount : ℚ) (category note : String)
    (data : Ledger) :
    (add_transaction now amount category note data).1.limits = data.limits
    ∧ (add_transaction now amount category note data).1.transactions
        = data.transactions ++ [mkTransaction now amount category note] :=
  ⟨rfl, rfl⟩

/-! ## C1: empty-category validation -/

/-- C1 (code bug): the engine function `add_transaction` itself performs
no category validation — called with an empty category it still appends
the transaction and signals no error, although its own docstring promises
a `ValueError` when the category is missing.  The empty-category check
exists only in the GUI callback `handle_add_transaction`. -/
theorem add_transaction_accepts_empty_category :
    (add_transaction "2024-01-02T03:04:05.000006" 5 "" "еда" emptyLedger).1.transactions
      = [mkTransaction "2024-01-02T03:04:05.000006" 5 "" "еда"]
    ∧ (add_transaction "2024-01-02T03:04:05.000006" 5 "" "еда" emptyLedger).2 = false :=
  ⟨rfl, rfl⟩

/-- The GUI callback, by contrast, does reject an empty category before
the engine is ever called. -/
theorem handle_add_transaction_rejects_empty (now : String) (amount : ℚ)
    (note : String) (data : Ledger) :
    handle_add_transaction now amount "" note data = .error .invalidInput :=
  rfl

/-! ## C5: balance is the sum of all amounts -/

/-- C5: `calculate_balance` returns the arithmetic sum of every stored
transaction's amount, and hence after any sequence of `add_transaction`
calls the balance equals the balance before plus the exact sum of the
added amounts. -/
theorem calculate_balance_correct :
    (∀ data : Ledger,
      calculate_balance data = (data.transactions.map Transaction.amount).sum)
    ∧ (∀ (data : Ledger) (adds : List (String × ℚ × String × String)),
      calculate_balance (apply_adds data adds)
        = calculate_balance data + (adds.map (fun a => a.2.1)).sum) := by
  constructor
  · intro data
    simpa using foldl_add_amount data.transactions 0
  · intro data adds
    induction adds generalizing data with
    | nil => simp [apply_adds]
    | cons a adds ih =>
        have hstep : apply_adds data (a :: adds)
            = apply_adds (add_transaction a.1 a.2.1 a.2.2.1 a.2.2.2 data).1 adds := rfl
        rw [hstep, ih]
        simp [add_transaction, calculate_balance_append, mkTransaction]
        ring

/-! ## C6: append monotonicity and type consistency -/

/-- C6: after `add_transaction` the transaction count grows by exactly
one, the appended entry's `type` is "списание" for a negative amount and
"начисление" otherwise, and the sign/type invariant is preserved for
every stored transaction. -/
theorem add_transaction_count_and_type (now : String) (amount : ℚ)
    (category note : String) (data : Ledger)
    (hinv : ∀ t ∈ data.transactions, type_consistent t) :
    ((add_transaction now amount category note data).1.transactions.length
        = data.transactions.length + 1)
    ∧ ((add_transaction now amount category note data).1.transactions.getLast?
        = some (mkTransaction now amount category note))
    ∧ ((mkTransaction now amount category note).type
        = if amount < 0 then "списание" else "начисление")
    ∧ (∀ t ∈ (add_transaction now amount category note data).1.transactions,
        type_consistent t) := by
  refine ⟨by simp [add_transaction], ?_, rfl, ?_⟩
  · simp [add_transaction]
  · intro t ht
    simp only [add_transaction, List.mem_append, List.mem_singleton] at ht
    rcases ht with h | h
    · exact hinv t h
    · subst h
      rfl

/-- Witness for C6 at a concrete debit on the empty ledger. -/
theorem add_transaction_count_and_type_witness :
    ((add_transaction "2024-01-02T03:04:05.000006" (-3) "Еда" "" emptyLedger).1.transactions.length = 1)
    ∧ (∀ t ∈ (add_transaction "2024-01-02T03:04:05.000006" (-3) "Еда" "" emptyLedger).1.transactions,
        type_consistent t) :=
  have h := add_transaction_count_and_type "2024-01-02T03:04:05.000006" (-3) "Еда" ""
    emptyLedger (by intro t ht; simp [emptyLedger] at ht)
  ⟨h.1, h.2.2.2⟩

/-! ## C2: the limit is advisory -/

/-- C2: the new transaction is appended (and the appended ledger is what
gets persisted) in every case; and whenever a limit is configured for the
category and the projected category total strictly exceeds it, the
warning popup is emitted.  The limit never blocks the add. -/
theorem add_transaction_limit_advisory (now : String) (amount : ℚ)
    (category note : String) (data : Ledger) :
    ((add_transaction now amount category note data).1.transactions
        = data.transactions ++ [mkTransaction now amount category note])
    ∧ (∀ lim : ℚ, dict_lookup data.limits category = some lim →
        category_total data category + amount > lim →
        (add_transaction now amount category note data).2 = true) := by
  refine ⟨rfl, ?_⟩
  intro lim hlim hover
  show limit_warning data amount category = true
  unfold limit_warning
  rw [hlim]
  simp only [foldl_add_amount, zero_add, decide_eq_true_eq]
  exact hover

/-- Witness for C2: with a limit of 100 on "Продукты" and 80 already
spent, adding 50 more warns (and still appends). -/
theorem add_transaction_limit_advisory_witness :
    ((add_transaction "2024-06-02T12:00:00.000001" 50 "Продукты" "ужин" limitLedger).1.transactions
        = limitLedger.transactions
            ++ [mkTransaction "2024-06-02T12:00:00.000001" 50 "Продукты" "ужин"])
    ∧ (add_transaction "2024-06-02T12:00:00.000001" 50 "Продукты" "ужин" limitLedger).2 = true :=
  have h := add_transaction_limit_advisory "2024-06-02T12:00:00.000001" 50 "Продукты"
    "ужин" limitLedger
  ⟨h.1, h.2 100 rfl (by norm_num [category_total, limitLedger, txProducts80])⟩

/-! ## C7: negative limits are rejected, others upserted -/

/-- C7: `set_limit` with a negative limit fails with the invalid-input
error — the `ValueError` is raised before the document is even loaded, so
the persisted ledger is untouched — while any limit `≥ 0` succeeds and
inserts or overwrites exactly the entry of that category. -/
theorem set_limit_spec (category : String) (lim : ℚ) (data : Ledger) :
    (lim < 0 → set_limit category lim data = .error .invalidInput)
    ∧ (0 ≤ lim →
        set_limit category lim data
          = .ok { data with limits := dict_insert data.limits category lim }
        ∧ dict_lookup (dict_insert data.limits category lim) category = some lim
        ∧ ∀ c, c ≠ category →
            dict_lookup (dict_insert data.limits category lim) c
              = dict_lookup data.limits c) := by
  constructor
  · intro h
    simp [set_limit, h]
  · intro h
    refine ⟨by simp [set_limit, not_lt.mpr h], dict_lookup_insert_self _ _ _, ?_⟩
    intro c hc
    exact dict_lookup_insert_ne _ _ _ _ hc

/-- Witness for C7: a negative limit is rejected, a positive one stored. -/
theorem set_limit_spec_witness :
    set_limit "Еда" (-1) emptyLedger = .error .invalidInput
    ∧ dict_lookup (dict_insert emptyLedger.limits "Еда" 200) "Еда" = some 200 :=
  ⟨(set_limit_spec "Еда" (-1) emptyLedger).1 (by norm_num),
   ((set_limit_spec "Еда" 200 emptyLedger).2 (by norm_num)).2.1⟩

/-! ## Date-time lemmas -/

theorem except_ok_bind {α β : Type} (a : α) (f : α → Except EngineError β) :
    (Except.ok a >>= f) = f a := rfl

theorem except_error_bind {α β : Type} (e : EngineError) (f : α → Except EngineError β) :
    ((Except.error e : Except EngineError α) >>= f) = Except.error e := rfl

theorem daysInMonth_le (year month : Nat) : daysInMonth year month ≤ 31 := by
  unfold daysInMonth
  split_ifs <;> omega

theorem mkDateTime_valid {y mo d h mi s us : Nat} {t : DateTime}
    (hp : mkDateTime y mo d h mi s us = some t) : t.Valid := by
  unfold mkDateTime at hp
  split at hp
  · rename_i hcond
    cases hp
    obtain ⟨h1, h2, h3, h4, h5, h6, h7, h8, h9, h10⟩ := hcond
    exact ⟨h1, h2, h3, h4, h5, le_trans h6 (daysInMonth_le y mo), h7, h8, h9, h10⟩
  · cases hp

theorem mkDateTime_components {y mo d h mi s us : Nat} {t : DateTime}
    (hp : mkDateTime y mo d h mi s us = some t) :
    t = ⟨y, mo, d, h, mi, s, us⟩ := by
  unfold mkDateTime at hp
  split at hp
  · cases hp
    rfl
  · cases hp

theorem parseISO_valid {s : String} {t : DateTime} (hp : parseISO s = some t) :
    t.Valid := by
  unfold parseISO at hp
  split at hp
  · split at hp
    · split at hp
      · simp only [Option.bind_eq_bind, Option.bind_eq_some] at hp
        obtain ⟨y, -, mo, -, d, -, hh, -, mi, -, sec, -, f, -, hmk⟩ := hp
        exact mkDateTime_valid hmk
      · cases hp
    · cases hp
  · cases hp

theorem parseDMY_valid {s : String} {t : DateTime} (hp : parseDMY s = some t) :
    t.Valid := by
  unfold parseDMY at hp
  split at hp
  · simp only [Option.bind_eq_bind, Option.bind_eq_some] at hp
    obtain ⟨d, -, mo, -, y, -, hmk⟩ := hp
    exact mkDateTime_valid hmk
  · cases hp

theorem parseDMY_timeKey {s : String} {t : DateTime} (hp : parseDMY s = some t) :
    t.timeKey = 0 := by
  unfold parseDMY at hp
  split at hp
  · simp only [Option.bind_eq_bind, Option.bind_eq_some] at hp
    obtain ⟨d, -, mo, -, y, -, hmk⟩ := hp
    rw [mkDateTime_components hmk]
    simp [DateTime.timeKey]
  · cases hp

theorem timeKey_lt_of_valid {t : DateTime} (h : t.Valid) :
    t.timeKey < 86400000000 := by
  obtain ⟨-, -, -, -, -, -, h7, h8, h9, h10⟩ := h
  unfold DateTime.timeKey
  omega

theorem le_true_iff_dateKey_le {a b : DateTime} (ha : a.timeKey = 0)
    (hb : b.timeKey < 86400000000) :
    DateTime.le a b = true ↔ a.dateKey ≤ b.dateKey := by
  unfold DateTime.le DateTime.key
  rw [ha]
  simp only [decide_eq_true_eq]
  omega

theorem dateKey_le_iff_dateLe {a b : DateTime} (ha : a.Valid) (hb : b.Valid) :
    a.dateKey ≤ b.dateKey ↔ DateTime.dateLe a b = true := by
  obtain ⟨-, -, ha3, ha4, ha5, ha6, -, -, -, -⟩ := ha
  obtain ⟨-, -, hb3, hb4, hb5, hb6, -, -, -, -⟩ := hb
  unfold DateTime.dateKey DateTime.dateLe
  simp only [decide_eq_true_eq]
  omega

theorem le_eq_dateLe_of_midnight {a b : DateTime} (hav : a.Valid) (hbv : b.Valid)
    (ha0 : a.timeKey = 0) : DateTime.le a b = DateTime.dateLe a b := by
  have h1 := le_true_iff_dateKey_le ha0 (timeKey_lt_of_valid hbv)
  have h2 := dateKey_le_iff_dateLe hav hbv
  cases hx : DateTime.le a b <;> cases hy : DateTime.dateLe a b <;> simp_all

/-! ## Filter lemmas -/

theorem filterTxs_eq_filter (sb eb : Bound) (p : Transaction → Bool)
    (ts : List Transaction)
    (hck : ∀ t ∈ ts, checkTx sb eb t = .ok (p t)) :
    filterTxs sb eb ts = .ok (ts.filter p) := by
  induction ts with
  | nil => rfl
  | cons t ts ih =>
      have ht := hck t (List.mem_cons_self t ts)
      have hts := ih (fun x hx => hck x (List.mem_cons_of_mem t hx))
      simp [filterTxs, ht, hts, List.filter_cons, except_ok_bind]

theorem checkTx_ok_nn {t : Transaction} {td : DateTime}
    (htd : parseISO t.date = some td) :
    checkTx .null .null t = .ok (spec_date_pass none none t) := by
  simp [checkTx, checkEnd, spec_date_pass, htd]

theorem checkTx_ok_ne {t : Transaction} {td edt : DateTime}
    (htd : parseISO t.date = some td) :
    checkTx .null (.dt edt) t = .ok (spec_date_pass none (some edt) t) := by
  simp [checkTx, checkEnd, spec_date_pass, htd]

theorem checkTx_ok_sn {t : Transaction} {td sdt : DateTime}
    (htd : parseISO t.date = some td)
    (hs : DateTime.le sdt td = DateTime.dateLe sdt td) :
    checkTx (.dt sdt) .null t = .ok (spec_date_pass (some sdt) none t) := by
  simp only [checkTx, checkEnd, spec_date_pass, htd, hs]
  cases DateTime.dateLe sdt td <;> simp

theorem checkTx_ok_ss {t : Transaction} {td sdt edt : DateTime}
    (htd : parseISO t.date = some td)
    (hs : DateTime.le sdt td = DateTime.dateLe sdt td) :
    checkTx (.dt sdt) (.dt edt) t = .ok (spec_date_pass (some sdt) (some edt) t) := by
  simp only [checkTx, checkEnd, spec_date_pass, htd, hs]
  cases DateTime.dateLe sdt td <;> simp

theorem parseBound_error {b : Option String} {e : EngineError}
    (h : parseBound b = .error e) : e = .invalidDateFormat := by
  unfold parseBound at h
  cases b with
  | none => cases h
  | some s =>
      by_cases hs : s = ""
      · simp [hs] at h
      · rcases hq : parseDMY s with _ | d
        · simp [hs, hq] at h
          exact h.symm
        · simp [hs, hq] at h

/-! ## C3: the date filter -/

/-- C3 counterexample: a transaction timestamped 10:00 on the endDate day
is dropped by the date filter although its calendar date equals the
endDate — the code compares the full timestamp against midnight of the
end bound, so "a transaction whose timestamp falls on the endDate day at
any time of day passes" is false. -/
theorem date_filter_end_day_dropped :
    date_filter none (some "15.06.2024") [txJuneMorning] = .ok []
    ∧ ((parseISO txJuneMorning.date).bind fun td =>
        (parseDMY "15.06.2024").map fun ed => DateTime.dateLe td ed) = some true :=
  ⟨rfl, rfl⟩

/-- C3 amended: for well-formed bounds and parseable stored timestamps,
the date filter keeps exactly the transactions whose timestamp's calendar
date is ≥ `startDate` (when given) and whose full timestamp is ≤ midnight
(00:00:00.000000) of `endDate` (when given); a transaction on the
`endDate` day passes only at exactly midnight. -/
theorem date_filter_amended (sd ed : Option String) (ts : List Transaction)
    (hsd : BoundOk sd) (hed : BoundOk ed)
    (hts : ∀ t ∈ ts, (parseISO t.date).isSome) :
    date_filter sd ed ts
      = .ok (ts.filter (spec_date_pass (parsedBound sd) (parsedBound ed))) := by
  have hget : ∀ t ∈ ts, ∃ td, parseISO t.date = some td :=
    fun t ht => Option.isSome_iff_exists.mp (hts t ht)
  cases sd with
  | none =>
      cases ed with
      | none =>
          show Except.ok ts = _
          rw [List.filter_eq_self.mpr]
          intro t ht
          obtain ⟨td, htd⟩ := hget t ht
          simp [spec_date_pass, parsedBound, htd]
      | some se =>
          obtain ⟨hene, hep⟩ := hed
          obtain ⟨edt, hedt⟩ := Option.isSome_iff_exists.mp hep
          have hpb : parseBound (some se) = .ok (.dt edt) := by
            simp [parseBound, hene, hedt]
          have hmain := filterTxs_eq_filter .null (.dt edt)
            (spec_date_pass none (some edt)) ts
            (fun t ht => by
              obtain ⟨td, htd⟩ := hget t ht
              exact checkTx_ok_ne htd)
          simp [date_filter, truthy, hene, hpb, hmain, parsedBound, hedt, parseBound, except_ok_bind]
  | some ss =>
      obtain ⟨hsne, hsp⟩ := hsd
      obtain ⟨sdt, hsdt⟩ := Option.isSome_iff_exists.mp hsp
      have hspb : parseBound (some ss) = .ok (.dt sdt) := by
        simp [parseBound, hsne, hsdt]
      have hsv := parseDMY_valid hsdt
      have hs0 := parseDMY_timeKey hsdt
      cases ed with
      | none =>
          have hmain := filterTxs_eq_filter (.dt sdt) .null
            (spec_date_pass (some sdt) none) ts
            (fun t ht => by
              obtain ⟨td, htd⟩ := hget t ht
              exact checkTx_ok_sn htd
                (le_eq_dateLe_of_midnight hsv (parseISO_valid htd) hs0))
          simp [date_filter, truthy, hsne, hspb, hmain, parsedBound, hsdt, parseBound, except_ok_bind]
      | some se =>
          obtain ⟨hene, hep⟩ := hed
          obtain ⟨edt, hedt⟩ := Option.isSome_iff_exists.mp hep
          have hepb : parseBound (some se) = .ok (.dt edt) := by
            simp [parseBound, hene, hedt]
          have hmain := filterTxs_eq_filter (.dt sdt) (.dt edt)
            (spec_date_pass (some sdt) (some edt)) ts
            (fun t ht => by
              obtain ⟨td, htd⟩ := hget t ht
              exact checkTx_ok_ss htd
                (le_eq_dateLe_of_midnight hsv (parseISO_valid htd) hs0))
          simp [date_filter, truthy, hsne, hene, hspb, hepb, hmain, parsedBound, hsdt, hedt, except_ok_bind]

/-- Witness for the amended C3 at the spec's own example: bounds
01.03.2024 and 01.09.2024 around a mid-June transaction. -/
theorem date_filter_amended_witness :
    date_filter (some "01.03.2024") (some "01.09.2024") [txJuneMorning]
      = .ok ([txJuneMorning].filter
          (spec_date_pass (parsedBound (some "01.03.2024"))
            (parsedBound (some "01.09.2024")))) :=
  date_filter_amended (some "01.03.2024") (some "01.09.2024") [txJuneMorning]
    ⟨by decide, by decide⟩ ⟨by decide, by decide⟩
    (by
      intro t ht
      rw [List.mem_singleton] at ht
      subst ht
      decide)

/-! ## C8: malformed date bounds abort the report -/

/-- C8: when the given `startDate` or `endDate` bound is a malformed date
string, the whole report fails with the date-format error and yields no
transaction sequence; `generate_report` never writes the ledger, so the
persisted document is untouched. -/
theorem generate_report_malformed_bound (sort_by : String) (rev : Bool)
    (sd ed cat : Option String) (data : Ledger)
    (hmal : malformedBound sd ∨ malformedBound ed) :
    generate_report sort_by rev sd ed cat data = .error .invalidDateFormat := by
  have hdf : date_filter sd ed data.transactions = .error .invalidDateFormat := by
    rcases hmal with ⟨s, rfl, hne, hp⟩ | ⟨s, rfl, hne, hp⟩
    · have hpb : parseBound (some s) = .error .invalidDateFormat := by
        simp [parseBound, hne, hp]
      simp [date_filter, truthy, hne, hpb, except_ok_bind, except_error_bind]
    · have hpb : parseBound (some s) = .error .invalidDateFormat := by
        simp [parseBound, hne, hp]
      cases hsb : parseBound sd with
      | error e =>
          have he := parseBound_error hsb
          subst he
          simp [date_filter, truthy, hne, hsb, except_ok_bind, except_error_bind]
      | ok b =>
          simp [date_filter, truthy, hne, hsb, hpb, except_ok_bind, except_error_bind]
  simp [generate_report, hdf, except_error_bind]

/-- Witness for C8 at a concrete malformed end bound. -/
theorem generate_report_malformed_bound_witness :
    generate_report "дата" false none (some "99.99.2024") none emptyLedger
      = .error .invalidDateFormat :=
  generate_report_malformed_bound "дата" false none (some "99.99.2024") none
    emptyLedger (Or.inr ⟨"99.99.2024", rfl, by decide, by decide⟩)

/-! ## Sort lemmas -/

theorem sort_key_le_total (sb : String) (a b : Transaction) :
    (sort_key_le sb a b || sort_key_le sb b a) = true := by
  unfold sort_key_le
  split_ifs <;> simp only [Bool.or_eq_true, decide_eq_true_eq] <;> exact le_total _ _

theorem sort_key_le_trans (sb : String) (a b c : Transaction)
    (hab : sort_key_le sb a b = true) (hbc : sort_key_le sb b c = true) :
    sort_key_le sb a c = true := by
  unfold sort_key_le at hab hbc ⊢
  split_ifs at hab hbc ⊢ <;>
    simp only [decide_eq_true_eq] at hab hbc ⊢ <;>
    exact le_trans hab hbc

theorem report_le_total (sb : String) (rev : Bool) (a b : Transaction) :
    (report_le sb rev a b || report_le sb rev b a) = true := by
  cases rev with
  | false => exact sort_key_le_total sb a b
  | true => exact sort_key_le_total sb b a

theorem report_le_trans (sb : String) (rev : Bool) (a b c : Transaction)
    (hab : report_le sb rev a b = true) (hbc : report_le sb rev b c = true) :
    report_le sb rev a c = true := by
  cases rev with
  | false => exact sort_key_le_trans sb a b c hab hbc
  | true => exact sort_key_le_trans sb c b a hbc hab

/-! ## C4: the report sort -/

/-- C4: for every filtered sequence and every `sort_by` value — "дата",
"сумма", "категория" dispatch to the date, amount and category keys and
everything else to the note key — the report's sort returns a permutation
of the sequence that is sorted by the requested comparison (ascending by
default, descending when `reverse` is set) and stable: a pair in key-tie
keeps its relative order. -/
theorem sort_transactions_spec (sort_by : String) (rev : Bool)
    (ts : List Transaction) :
    (sort_transactions sort_by rev ts).Perm ts
    ∧ (sort_transactions sort_by rev ts).Pairwise
        (fun a b => report_le sort_by rev a b = true)
    ∧ (∀ a b : Transaction, sort_key_le sort_by a b = true →
        sort_key_le sort_by b a = true → [a, b].Sublist ts →
        [a, b].Sublist (sort_transactions sort_by rev ts)) := by
  refine ⟨List.mergeSort_perm ts _, ?_, ?_⟩
  · exact List.sorted_mergeSort
      (fun a b c => report_le_trans sort_by rev a b c)
      (fun a b => report_le_total sort_by rev a b) ts
  · intro a b hab hba hsub
    refine List.pair_sublist_mergeSort
      (fun a b c => report_le_trans sort_by rev a b c)
      (fun a b => report_le_total sort_by rev a b) ?_ hsub
    cases rev with
    | false => exact hab
    | true => exact hba

/-- Witness for C4: the equal-amount pair, sorted by amount ascending,
keeps its insertion order. -/
theorem sort_transactions_spec_witness :
    [txPairFst, txPairSnd].Sublist
      (sort_transactions "сумма" false [txPairFst, txPairSnd]) :=
  (sort_transactions_spec "сумма" false [txPairFst, txPairSnd]).2.2 txPairFst txPairSnd
    (by decide) (by decide) (List.Sublist.refl _)

/-! ## C9: sort stability on equal amounts -/

/-- C9: two stored transactions with identical amounts retain their
relative order in the report sorted by amount, in both the ascending and
the descending direction. -/
theorem sort_by_amount_stable (ts : List Transaction) (rev : Bool)
    (a b : Transaction) (hamount : a.amount = b.amount)
    (hsub : [a, b].Sublist ts) :
    [a, b].Sublist (sort_transactions "сумма" rev ts) := by
  refine List.pair_sublist_mergeSort
    (fun x y z => report_le_trans "сумма" rev x y z)
    (fun x y => report_le_total "сумма" rev x y) ?_ hsub
  have h1 : sort_key_le "сумма" a b = true := by
    show decide (a.amount ≤ b.amount) = true
    rw [hamount]
    simp
  have h2 : sort_key_le "сумма" b a = true := by
    show decide (b.amount ≤ a.amount) = true
    rw [hamount]
    simp
  cases rev with
  | false => exact h1
  | true => exact h2

/-- Witness for C9: the equal-amount pair keeps its order under the
descending amount sort. -/
theorem sort_by_amount_stable_witness :
    [txPairFst, txPairSnd].Sublist
      (sort_transactions "сумма" true [txPairFst, txPairSnd]) :=
  sort_by_amount_stable [txPairFst, txPairSnd] true txPairFst txPairSnd rfl
    (List.Sublist.refl _)

end Finances
